import Mathlib

/-!
Verification of the repository-path validation and trust-resolution workflow
of the `AddExistingRepository` dialog component
(src/app/src/ui/open-pull-request/open-pull-request-dialog.tsx, second
document in the file).

The component's React state is embedded as a plain structure, its handlers
(`updatePath`, `validatePath`, `onPathChanged`, `onTrustDirectory`) as pure
transition functions, and the asynchronous classifier `getRepositoryType`
as an environment that delivers `(requestedPath, RepositoryType)` responses.

Note on naming: the source uses the word "unsafe" for the classification of
a repository owned by another filesystem principal (`isRepositoryUnsafe`,
`repositoryUnsafePath`, kind `'unsafe'`).  That word is a reserved keyword
in Lean, so those names are rendered here with "untrusted" instead:
`isRepositoryUntrusted`, `repositoryUntrustedPath`, `RepositoryType.untrusted`.
-/

/-- The result of `getRepositoryType` (external classifier, lib/git).
The source discriminates on `type.kind` being `'missing'`, `'unsafe'`
(rendered `untrusted` here, carrying `type.path`), `'bare'`, or the
regular (valid, non-bare) case. -/
inductive RepositoryType where
  | missing : RepositoryType
  | bare : RepositoryType
  | regular : RepositoryType
  | untrusted : String → RepositoryType
deriving DecidableEq

/-- `type.kind === 'missing'` -/
def kindMissing : RepositoryType → Bool
  | RepositoryType.missing => true
  | _ => false

/-- `type.kind === 'bare'` -/
def kindBare : RepositoryType → Bool
  | RepositoryType.bare => true
  | _ => false

/-- `type.kind === 'unsafe'` -/
def kindUntrusted : RepositoryType → Bool
  | RepositoryType.untrusted _ => true
  | _ => false

/-- `type.kind === 'unsafe' ? type.path : undefined` -/
def kindPath : RepositoryType → Option String
  | RepositoryType.untrusted p => some p
  | _ => none

/-- `type.kind === 'regular'`: a usable, non-bare repository (the spec's
`Valid` classification). -/
def kindRegular : RepositoryType → Bool
  | RepositoryType.regular => true
  | _ => false

/-- The component state `IAddExistingRepositoryState`.
`repositoryUntrustedPath = none` renders the field being `undefined`. -/
structure CompState where
  path : String
  isRepository : Bool
  showNonGitRepositoryWarning : Bool
  isRepositoryBare : Bool
  isRepositoryUntrusted : Bool
  repositoryUntrustedPath : Option String
  isTrustingRepository : Bool
deriving DecidableEq

/-- The constructor's initial state: `path = this.props.path ? this.props.path : ''`
(for a string, the truthiness test gives back the same string, so this is
`propsPath.getD ""`), every flag `false`, `repositoryUnsafePath` undefined. -/
def initialState (propsPath : Option String) : CompState :=
  { path := propsPath.getD ""
    isRepository := false
    showNonGitRepositoryWarning := false
    isRepositoryBare := false
    isRepositoryUntrusted := false
    repositoryUntrustedPath := none
    isTrustingRepository := false }

/-- The synchronous part of `updatePath`:
`this.setState({ path, isRepository: false })`. -/
def updatePathSet (p : String) (s : CompState) : CompState :=
  { s with path := p, isRepository := false }

/-- The `path.length === 0` branch of `validatePath`: reset `isRepository`,
`isRepositoryBare` and `showNonGitRepositoryWarning` (and nothing else). -/
def validatePathEmptyUpdate (s : CompState) : CompState :=
  { s with
    isRepository := false
    isRepositoryBare := false
    showNonGitRepositoryWarning := false }

/-- The state updater `validatePath` runs once `getRepositoryType(path)` has
resolved to `t`: the derived fields are computed from `t` and applied only
when `path === state.path` still holds at application time (the functional
`setState` returns `null` otherwise, leaving the state untouched). -/
def applyRepositoryType (requested : String) (t : RepositoryType) (s : CompState) : CompState :=
  let isRepository := !(kindMissing t || kindUntrusted t)
  let isRepositoryBare := kindBare t
  let showNonGitRepositoryWarning := !isRepository || isRepositoryBare
  if requested = s.path then
    { s with
      isRepository := isRepository
      isRepositoryBare := isRepositoryBare
      isRepositoryUntrusted := kindUntrusted t
      showNonGitRepositoryWarning := showNonGitRepositoryWarning
      repositoryUntrustedPath := kindPath t }
  else s

/-- A system configuration: the component state together with the log of
classification requests issued to `getRepositoryType`, in issue order. -/
structure Sys where
  st : CompState
  requests : List String
deriving DecidableEq

/-- `updatePath(p)` followed by the synchronous prefix of `validatePath(p)`:
stores `p` and clears `isRepository`; if `p` is empty, `validatePath`
resets synchronously and issues no classification request, otherwise a
`getRepositoryType(p)` request is issued. -/
def stepSetPath (p : String) (sys : Sys) : Sys :=
  let s := updatePathSet p sys.st
  if p.length = 0 then { st := validatePathEmptyUpdate s, requests := sys.requests }
  else { st := s, requests := sys.requests ++ [p] }

/-- Delivery of a classifier response `(requested, t)` to the component. -/
def stepDeliver (requested : String) (t : RepositoryType) (sys : Sys) : Sys :=
  { sys with st := applyRepositoryType requested t sys.st }

/-- External events the component reacts to: a user path edit routed through
`updatePath`, or the arrival of an outstanding classifier response. -/
inductive Event where
  | setPath : String → Event
  | deliver : String → RepositoryType → Event
deriving DecidableEq

def step (sys : Sys) (e : Event) : Sys :=
  match e with
  | Event.setPath p => stepSetPath p sys
  | Event.deliver r t => stepDeliver r t sys

def run (sys : Sys) (es : List Event) : Sys :=
  es.foldl step sys

/-- The text-box change handler `onPathChanged`:
`if (this.state.path !== path) { this.updatePath(path) }`. -/
def onPathChanged (p : String) (sys : Sys) : Sys :=
  if sys.st.path ≠ p then stepSetPath p sys else sys

/-- The OK button's `disabled` expression in `render`:
`this.state.path.length === 0 || !this.state.isRepository || this.state.isRepositoryBare`. -/
def okButtonDisabled (s : CompState) : Bool :=
  (s.path.length == 0) || !s.isRepository || s.isRepositoryBare

/-- The submission gate: the OK button is enabled. -/
def canSubmit (s : CompState) : Bool :=
  !okButtonDisabled s

/-- JavaScript truthiness of the optional `repositoryUnsafePath` field:
`undefined` and the empty string are falsy, every other string truthy
(the source guards the `addSafeDirectory` call with
`if (repositoryUnsafePath)`). -/
def optTruthy : Option String → Bool
  | some p => p != ""
  | none => false

/-- Primitive actions performed by the `onTrustDirectory` handler, in
program order.  `issueClassification p` is the moment `validatePath`
calls `getRepositoryType(p)`; `classificationResolved p` is the moment
that promise resolves and the guarded state update runs (the handler
awaits `validatePath` in full). -/
inductive TrustAction where
  | setTrusting : Bool → TrustAction
  | callTrustPath : String → TrustAction
  | callValidatePath : String → TrustAction
  | issueClassification : String → TrustAction
  | classificationResolved : String → TrustAction
deriving DecidableEq

/-- The actions of one `validatePath(p)` invocation: the call itself, and —
unless `p` is empty, in which case `validatePath` returns after a
synchronous reset — the issue and resolution of the classifier request. -/
def validatePathActions (p : String) : List TrustAction :=
  TrustAction.callValidatePath p ::
    (if p.length = 0 then []
     else [TrustAction.issueClassification p, TrustAction.classificationResolved p])

/-- The trace of `onTrustDirectory`, run from captured state `s0`.

`s0` is `this.state` at entry: the handler destructures
`{ repositoryUnsafePath, path }` from it before its first `await`, so both
are captured values.  `trustOk` says whether the awaited
`addSafeDirectory` promise fulfills; when it rejects the handler has no
`try`/`catch`, so nothing after that point runs.  `pLive` is the
controller's current path at the moment the trust side effect completes
(the environment may have changed it during the `await`); the source never
consults it — every later action uses the captured `path`. -/
def onTrustDirectoryTrace (trustOk : Bool) (s0 : CompState) (pLive : String) :
    List TrustAction :=
  TrustAction.setTrusting true ::
    (match s0.repositoryUntrustedPath with
     | some p =>
       if p != "" then
         if trustOk then
           TrustAction.callTrustPath p ::
             (validatePathActions s0.path ++ [TrustAction.setTrusting false])
         else [TrustAction.callTrustPath p]
       else validatePathActions s0.path ++ [TrustAction.setTrusting false]
     | none => validatePathActions s0.path ++ [TrustAction.setTrusting false])

/-- The state effect of one `validatePath(p)` invocation whose classifier
(if consulted) answers `t`: the empty-path reset, or the guarded
application of `t` for requested path `p`. -/
def validatePathRun (p : String) (t : RepositoryType) (s : CompState) : CompState :=
  if p.length = 0 then validatePathEmptyUpdate s else applyRepositoryType p t s

/-- The component state after `onTrustDirectory` under the schedule with no
concurrent path edits, with `trustOk` as in `onTrustDirectoryTrace` and
`t` the classifier's answer for the re-validation.  `Except.error s`
renders the `addSafeDirectory` rejection propagating out of the handler
(no `try`/`catch`) with the component left in state `s`. -/
def onTrustDirectoryRun (trustOk : Bool) (t : RepositoryType) (s0 : CompState) :
    Except CompState CompState :=
  let s1 := { s0 with isTrustingRepository := true }
  if optTruthy s0.repositoryUntrustedPath && !trustOk then Except.error s1
  else Except.ok { validatePathRun s0.path t s1 with isTrustingRepository := false }

/-! ### The path normalizer

`resolvedPath(path)` in the source is `Path.resolve('/', untildify(path))`:
the npm `untildify` home-directory expansion followed by Node's
POSIX-path resolution against `/`.  Both are embedded at the
character-list level so that their algebra is provable. -/

/-- npm `untildify`: `homeDirectory ? path.replace(/^~(?=$|\/|\\)/, homeDirectory) : path`.
A leading `~` that is the whole string or is followed by `/` or `\`
is replaced by the home directory; with a falsy (empty) home directory
the input is returned unchanged. -/
def untildifyL (home p : List Char) : List Char :=
  if home = [] then p
  else
    match p with
    | [] => []
    | c :: rest =>
      if c = '~' then
        match rest with
        | [] => home
        | d :: _ => if d = '/' || d = '\\' then home ++ rest else c :: rest
      else c :: rest

/-- Split a character list on `'/'` (the segment decomposition Node's
`normalizeString` walks through). Always returns at least one segment. -/
def splitSeg : List Char → List (List Char)
  | [] => [[]]
  | c :: cs =>
    if c = '/' then [] :: splitSeg cs
    else
      match splitSeg cs with
      | [] => [[c]]
      | s :: rest => (c :: s) :: rest

/-- Join segments with `'/'` (inverse of `splitSeg` on slash-free
segments). -/
def joinSeg : List (List Char) → List Char
  | [] => []
  | [s] => s
  | s :: ss => s ++ '/' :: joinSeg ss

/-- One step of Node's `normalizeString` over the resolved-absolute string
with `allowAboveRoot = false`: empty segments (duplicate slashes) and `.`
are dropped, `..` pops the last kept segment (or is dropped at the root),
and any other segment is kept. -/
def stepSeg (stack : List (List Char)) (seg : List Char) : List (List Char) :=
  if seg = [] || seg = ['.'] then stack
  else if seg = ['.', '.'] then stack.dropLast
  else stack ++ [seg]

def resolveSegs (segs : List (List Char)) : List (List Char) :=
  segs.foldl stepSeg []

/-- Node `path.posix.resolve('/', p)`: since the leftmost argument `/` is
absolute, the concatenated string is normalized with
`allowAboveRoot = false` and prefixed with `/`.  The leading-`/` cases of
`p` only contribute empty segments, which `stepSeg` drops, so the
segment walk below covers both the absolute and the relative shape. -/
def resolveRootL (p : List Char) : List Char :=
  '/' :: joinSeg (resolveSegs (splitSeg p))

def normalizeL (home p : List Char) : List Char :=
  resolveRootL (untildifyL home p)

/-- `resolvedPath(path) = Path.resolve('/', untildify(path))`, with the
home directory (a process global in the source, `os.homedir()`) passed
explicitly. -/
def resolvedPath (home path : String) : String :=
  String.mk (normalizeL home.data path.data)

/-- A segment that survives `stepSeg` verbatim: nonempty, not `.`, not `..`,
and slash-free. -/
def goodSeg (s : List Char) : Prop :=
  s ≠ [] ∧ s ≠ ['.'] ∧ s ≠ ['.', '.'] ∧ '/' ∉ s

/-- An initial configuration: the component mounted with no prefilled path. -/
def sysA : Sys := { st := initialState none, requests := [] }

/-- A concrete state whose last validation classified the entered path `/a`
as owned by another principal, flagging owner path `/owner`. -/
def sFlagged : CompState :=
  { path := "/a"
    isRepository := false
    showNonGitRepositoryWarning := true
    isRepositoryBare := false
    isRepositoryUntrusted := true
    repositoryUntrustedPath := some "/owner"
    isTrustingRepository := false }

/-- A concrete state with no flagged owner path recorded
(`repositoryUnsafePath` undefined). -/
def sPlain : CompState :=
  { path := "/b"
    isRepository := true
    showNonGitRepositoryWarning := false
    isRepositoryBare := false
    isRepositoryUntrusted := false
    repositoryUntrustedPath := none
    isTrustingRepository := false }

theorem run_append (sys : Sys) (es : List Event) (e : Event) :
    run sys (es ++ [e]) = step (run sys es) e := by
  simp [run, List.foldl_append]

lemma length_eq_zero_iff (p : String) : p.length = 0 ↔ p = "" := by
  constructor
  · intro h
    cases p with
    | mk data =>
      have : data = [] := List.length_eq_zero.mp h
      subst this
      rfl
  · intro h
    subst h
    rfl

lemma splitSeg_ne_nil (p : List Char) : splitSeg p ≠ [] := by
  induction p with
  | nil => simp [splitSeg]
  | cons c cs ih =>
    rw [splitSeg]
    by_cases hc : c = '/'
    · simp [hc]
    · simp only [if_neg hc]
      cases h : splitSeg cs <;> simp

lemma splitSeg_slash_cons (x : List Char) : splitSeg ('/' :: x) = [] :: splitSeg x := by
  simp [splitSeg]

lemma slashFree_splitSeg (p : List Char) : ∀ s ∈ splitSeg p, '/' ∉ s := by
  induction p with
  | nil =>
    intro s hs
    simp [splitSeg] at hs
    simp [hs]
  | cons c cs ih =>
    intro s hs
    rw [splitSeg] at hs
    by_cases hc : c = '/'
    · simp [hc] at hs
      rcases hs with h | h
      · simp [h]
      · exact ih s h
    · simp only [if_neg hc] at hs
      cases h : splitSeg cs with
      | nil => exact absurd h (splitSeg_ne_nil cs)
      | cons u rest =>
        rw [h] at hs
        rcases List.mem_cons.mp hs with h1 | h1
        · subst h1
          intro hmem
          rcases List.mem_cons.mp hmem with h2 | h2
          · exact hc h2.symm
          · exact ih u (by simp [h]) h2
        · exact ih s (by simp [h, h1])

lemma splitSeg_of_slashFree (s : List Char) (h : '/' ∉ s) : splitSeg s = [s] := by
  induction s with
  | nil => simp [splitSeg]
  | cons c cs ih =>
    have hc : c ≠ '/' := by
      intro e
      exact h (e ▸ List.mem_cons_self c cs)
    have hcs : '/' ∉ cs := fun e => h (List.mem_cons_of_mem c e)
    rw [splitSeg, if_neg hc, ih hcs]

lemma splitSeg_append (s t u : List Char) (rest : List (List Char))
    (hs : '/' ∉ s) (ht : splitSeg t = u :: rest) :
    splitSeg (s ++ t) = (s ++ u) :: rest := by
  induction s with
  | nil => simpa using ht
  | cons c cs ih =>
    have hc : c ≠ '/' := by
      intro e
      exact hs (e ▸ List.mem_cons_self c cs)
    have hcs : '/' ∉ cs := fun e => hs (List.mem_cons_of_mem c e)
    rw [List.cons_append, splitSeg, if_neg hc, ih hcs]
    simp

lemma splitSeg_joinSeg : ∀ (ss : List (List Char)), ss ≠ [] →
    (∀ s ∈ ss, '/' ∉ s) → splitSeg (joinSeg ss) = ss := by
  intro ss
  induction ss with
  | nil => intro h; exact absurd rfl h
  | cons s rest ih =>
    intro _ hsl
    cases rest with
    | nil =>
      rw [joinSeg]
      exact splitSeg_of_slashFree s (hsl s (by simp))
    | cons s2 rest2 =>
      have hjoin : joinSeg (s :: s2 :: rest2) = s ++ '/' :: joinSeg (s2 :: rest2) := rfl
      have h2 : splitSeg (joinSeg (s2 :: rest2)) = s2 :: rest2 :=
        ih (by simp) (fun x hx => hsl x (List.mem_cons_of_mem _ hx))
      have h3 : splitSeg ('/' :: joinSeg (s2 :: rest2)) = [] :: s2 :: rest2 := by
        rw [splitSeg_slash_cons, h2]
      have h4 := splitSeg_append s ('/' :: joinSeg (s2 :: rest2)) [] (s2 :: rest2)
        (hsl s (by simp)) h3
      rw [hjoin, h4]
      simp

lemma mem_of_mem_dropLast {α : Type} (l : List α) (a : α) (h : a ∈ l.dropLast) : a ∈ l :=
  List.dropLast_subset l h

lemma goodSeg_foldl (segs : List (List Char)) :
    ∀ acc, (∀ s ∈ acc, goodSeg s) → (∀ s ∈ segs, '/' ∉ s) →
      ∀ s ∈ List.foldl stepSeg acc segs, goodSeg s := by
  induction segs with
  | nil =>
    intro acc hacc _ s hs
    exact hacc s hs
  | cons a rest ih =>
    intro acc hacc hsl s hs
    rw [List.foldl_cons] at hs
    refine ih (stepSeg acc a) ?_ (fun x hx => hsl x (List.mem_cons_of_mem _ hx)) s hs
    intro x hx
    by_cases h1 : a = []
    · simp [stepSeg, h1] at hx
      exact hacc x hx
    by_cases h2 : a = ['.']
    · simp [stepSeg, h2] at hx
      exact hacc x hx
    by_cases h3 : a = ['.', '.']
    · simp [stepSeg, h1, h2, h3] at hx
      exact hacc x (mem_of_mem_dropLast _ _ hx)
    · simp [stepSeg, h1, h2, h3] at hx
      rcases hx with h4 | h4
      · exact hacc x h4
      · subst h4
        exact ⟨h1, h2, h3, hsl x (List.mem_cons_self _ _)⟩

lemma foldl_stepSeg_of_good (segs : List (List Char)) :
    ∀ acc, (∀ s ∈ segs, goodSeg s) → List.foldl stepSeg acc segs = acc ++ segs := by
  induction segs with
  | nil => intro acc _; simp
  | cons a rest ih =>
    intro acc h
    have ha : goodSeg a := h a (List.mem_cons_self a rest)
    have hstep : stepSeg acc a = acc ++ [a] := by
      simp [stepSeg, ha.1, ha.2.1, ha.2.2.1]
    rw [List.foldl_cons, hstep, ih _ (fun x hx => h x (List.mem_cons_of_mem _ hx))]
    simp

lemma untildifyL_slash (home x : List Char) : untildifyL home ('/' :: x) = '/' :: x := by
  unfold untildifyL
  by_cases h : home = [] <;> simp [h]

lemma resolveRootL_fix (st : List (List Char)) (h : ∀ s ∈ st, goodSeg s) :
    resolveRootL ('/' :: joinSeg st) = '/' :: joinSeg st := by
  cases st with
  | nil => simp [resolveRootL, joinSeg, splitSeg, resolveSegs, stepSeg]
  | cons a rest =>
    have hne : (a :: rest : List (List Char)) ≠ [] := by simp
    have hsl : ∀ s ∈ a :: rest, '/' ∉ s := fun s hs => (h s hs).2.2.2
    rw [resolveRootL, splitSeg_slash_cons, splitSeg_joinSeg _ hne hsl, resolveSegs,
      List.foldl_cons]
    have hz : stepSeg [] [] = [] := by simp [stepSeg]
    rw [hz, foldl_stepSeg_of_good _ [] h]
    simp

lemma normalizeL_idem (home p : List Char) :
    normalizeL home (normalizeL home p) = normalizeL home p := by
  have hgood : ∀ s ∈ resolveSegs (splitSeg (untildifyL home p)), goodSeg s :=
    goodSeg_foldl _ [] (by simp) (slashFree_splitSeg _)
  show resolveRootL (untildifyL home
      ('/' :: joinSeg (resolveSegs (splitSeg (untildifyL home p))))) =
    '/' :: joinSeg (resolveSegs (splitSeg (untildifyL home p)))
  rw [untildifyL_slash]
  exact resolveRootL_fix _ hgood

lemma trustTrace_eq (s0 : CompState) (p pLive : String)
    (hup : s0.repositoryUntrustedPath = some p) (hp : p ≠ "") (hpath : s0.path ≠ "") :
    onTrustDirectoryTrace true s0 pLive =
      [TrustAction.setTrusting true, TrustAction.callTrustPath p,
       TrustAction.callValidatePath s0.path, TrustAction.issueClassification s0.path,
       TrustAction.classificationResolved s0.path, TrustAction.setTrusting false] := by
  have hlen : ¬ s0.path.length = 0 := by
    rw [length_eq_zero_iff]
    exact hpath
  simp [onTrustDirectoryTrace, hup, hp, validatePathActions, hlen]

/-- Claim C1: for every sequence of `setPath` calls (and deliveries) and
every classification response `(r, t)`, the delivered result is applied to
the controller state if and only if the requested path `r` equals the
controller's current path at the moment of application (the derived fields
are then set from `t`); a response whose requested path differs is
discarded and leaves the entire configuration — component state and
request log — unchanged. -/
theorem c1_stale_result_guard (sys0 : Sys) (es : List Event) (r : String)
    (t : RepositoryType) :
    (r = (run sys0 es).st.path →
      run sys0 (es ++ [Event.deliver r t]) =
        { st := { (run sys0 es).st with
            isRepository := !(kindMissing t || kindUntrusted t)
            isRepositoryBare := kindBare t
            isRepositoryUntrusted := kindUntrusted t
            showNonGitRepositoryWarning := (kindMissing t || kindUntrusted t) || kindBare t
            repositoryUntrustedPath := kindPath t }
          requests := (run sys0 es).requests }) ∧
    (r ≠ (run sys0 es).st.path →
      run sys0 (es ++ [Event.deliver r t]) = run sys0 es) := by
  constructor
  · intro h
    rw [run_append]
    simp only [step, stepDeliver, applyRepositoryType, if_pos h]
    cases t <;> rfl
  · intro h
    rw [run_append]
    simp [step, stepDeliver, applyRepositoryType, h]

/-- Witness for C1: from the initial configuration, after `setPath("/a")`,
a response for `/a` is applied and a response for `/b` is discarded. -/
theorem c1_stale_result_guard_witness :
    ("/a" = (run sysA [Event.setPath "/a"]).st.path ∧
      run sysA ([Event.setPath "/a"] ++ [Event.deliver "/a" RepositoryType.regular]) =
        { st := { path := "/a", isRepository := true, showNonGitRepositoryWarning := false,
                  isRepositoryBare := false, isRepositoryUntrusted := false,
                  repositoryUntrustedPath := none, isTrustingRepository := false }
          requests := ["/a"] }) ∧
    ("/b" ≠ (run sysA [Event.setPath "/a"]).st.path ∧
      run sysA ([Event.setPath "/a"] ++ [Event.deliver "/b" RepositoryType.bare]) =
        run sysA [Event.setPath "/a"]) := by
  refine ⟨⟨by decide, ?_⟩, ⟨by decide, ?_⟩⟩
  · rw [(c1_stale_result_guard sysA [Event.setPath "/a"] "/a" RepositoryType.regular).1
      (by decide)]
    decide
  · exact (c1_stale_result_guard sysA [Event.setPath "/a"] "/b" RepositoryType.bare).2
      (by decide)

/-- Claim C2: the submission gate (OK button enabled) is true iff the path
is non-empty and the classification is exactly the valid one: every
empty-path (`None`) snapshot is disabled, every snapshot reached by a
fresh `setPath` (`Pending`) is disabled, and a snapshot holding a
delivered classification `t` for its (non-empty) path is enabled exactly
when `t` is the regular kind — `missing`, `unsafe` and `bare` all give
`false`. -/
theorem c2_submission_gate (s : CompState) (sys : Sys) (p : String) (t : RepositoryType) :
    (s.path = "" → canSubmit s = false) ∧
    canSubmit (stepSetPath p sys).st = false ∧
    (s.path ≠ "" → canSubmit (applyRepositoryType s.path t s) = kindRegular t) := by
  refine ⟨?_, ?_, ?_⟩
  · intro h
    simp [canSubmit, okButtonDisabled, h]
  · by_cases h : p.length = 0 <;>
      simp [stepSetPath, canSubmit, okButtonDisabled, updatePathSet,
        validatePathEmptyUpdate, h]
  · intro h
    have hlen : (s.path.length == 0) = false := by
      simp [length_eq_zero_iff, h]
    cases t <;>
      simp [applyRepositoryType, canSubmit, okButtonDisabled, kindMissing,
        kindUntrusted, kindBare, kindPath, kindRegular, hlen]

/-- Witness for C2: the empty snapshot is disabled, a fresh edit is
disabled, and `/a` classified regular is enabled while classified bare is
disabled. -/
theorem c2_submission_gate_witness :
    ((initialState none).path = "" ∧ canSubmit (initialState none) = false) ∧
    canSubmit (stepSetPath "/a" sysA).st = false ∧
    ((sFlagged.path ≠ "" ∧
        canSubmit (applyRepositoryType sFlagged.path RepositoryType.regular sFlagged) =
          kindRegular RepositoryType.regular) ∧
      canSubmit (applyRepositoryType sFlagged.path RepositoryType.bare sFlagged) =
        kindRegular RepositoryType.bare) := by
  refine ⟨⟨by decide, ?_⟩, ?_, ⟨⟨by decide, ?_⟩, ?_⟩⟩
  · exact (c2_submission_gate (initialState none) sysA "/x" RepositoryType.missing).1
      (by decide)
  · exact (c2_submission_gate (initialState none) sysA "/a" RepositoryType.missing).2.1
  · exact (c2_submission_gate sFlagged sysA "/x" RepositoryType.regular).2.2 (by decide)
  · exact (c2_submission_gate sFlagged sysA "/x" RepositoryType.bare).2.2 (by decide)

/-- Claim C6: `setPath(p)` stores `p` as the current path; when `p` is
empty the snapshot immediately becomes the reset one (the spec's `None`:
`isRepository`, `isRepositoryBare` and `showNonGitRepositoryWarning`
cleared, no classification request issued) with `canSubmit` false, and
when `p` is non-empty `isRepository` is immediately cleared (the spec's
`Pending`) and exactly one classification request for `p` is issued. -/
theorem c6_setPath_stores_and_classifies (sys : Sys) (p : String) :
    (stepSetPath p sys).st.path = p ∧
    (p = "" →
      stepSetPath p sys =
        { st := { sys.st with
            path := ""
            isRepository := false
            isRepositoryBare := false
            showNonGitRepositoryWarning := false }
          requests := sys.requests } ∧
      canSubmit (stepSetPath p sys).st = false) ∧
    (p ≠ "" →
      (stepSetPath p sys).st = { sys.st with path := p, isRepository := false } ∧
      (stepSetPath p sys).requests = sys.requests ++ [p]) := by
  by_cases h : p.length = 0
  · have hp : p = "" := (length_eq_zero_iff p).mp h
    subst hp
    refine ⟨rfl, fun _ => ⟨rfl, rfl⟩, fun hne => absurd rfl hne⟩
  · have hp : p ≠ "" := fun e => h ((length_eq_zero_iff p).mpr e)
    refine ⟨?_, fun he => absurd he hp, fun _ => ⟨?_, ?_⟩⟩ <;>
      simp [stepSetPath, updatePathSet, h]

/-- Witness for C6: `setPath("")` and `setPath("/r")` from the flagged
configuration. -/
theorem c6_setPath_stores_and_classifies_witness :
    ((stepSetPath "" { st := sFlagged, requests := [] }).st.path = "" ∧
      ("" = "" →
        stepSetPath "" { st := sFlagged, requests := [] } =
          { st := { sFlagged with
              path := ""
              isRepository := false
              isRepositoryBare := false
              showNonGitRepositoryWarning := false }
            requests := [] } ∧
        canSubmit (stepSetPath "" { st := sFlagged, requests := [] }).st = false)) ∧
    ("/r" ≠ "" ∧
      (stepSetPath "/r" sysA).st = { sysA.st with path := "/r", isRepository := false } ∧
      (stepSetPath "/r" sysA).requests = sysA.requests ++ ["/r"]) := by
  refine ⟨⟨?_, ?_⟩, ⟨by decide, ?_⟩⟩
  · exact (c6_setPath_stores_and_classifies { st := sFlagged, requests := [] } "").1
  · exact fun _ =>
      (c6_setPath_stores_and_classifies { st := sFlagged, requests := [] } "").2.1 rfl
  · exact (c6_setPath_stores_and_classifies sysA "/r").2.2 (by decide)

/-- Claim C8: the empty-path branch of `validatePath` resets only
`isRepository`, `isRepositoryBare` and `showNonGitRepositoryWarning`;
`isRepositoryUnsafe` (`isRepositoryUntrusted` here) and
`repositoryUnsafePath` (`repositoryUntrustedPath` here) are left
unchanged — so a residual unsafe marker from a previous path survives a
`setPath("")`. -/
theorem c8_empty_validation_frame (s : CompState) (sys : Sys) :
    ((validatePathEmptyUpdate s).isRepositoryUntrusted = s.isRepositoryUntrusted ∧
      (validatePathEmptyUpdate s).repositoryUntrustedPath = s.repositoryUntrustedPath ∧
      (validatePathEmptyUpdate s).isTrustingRepository = s.isTrustingRepository ∧
      (validatePathEmptyUpdate s).path = s.path ∧
      (validatePathEmptyUpdate s).isRepository = false ∧
      (validatePathEmptyUpdate s).isRepositoryBare = false ∧
      (validatePathEmptyUpdate s).showNonGitRepositoryWarning = false) ∧
    ((stepSetPath "" sys).st.isRepositoryUntrusted = sys.st.isRepositoryUntrusted ∧
      (stepSetPath "" sys).st.repositoryUntrustedPath = sys.st.repositoryUntrustedPath ∧
      (stepSetPath "" sys).requests = sys.requests) := by
  refine ⟨⟨rfl, rfl, rfl, rfl, rfl, rfl, rfl⟩, ?_⟩
  simp [stepSetPath, updatePathSet, validatePathEmptyUpdate]

/-- Claim C9: a path-change notification carrying the current path is a
complete no-op — the configuration (every state field and the request
log) is returned unchanged — and only a strictly different path triggers
the store-and-validate sequence. -/
theorem c9_pathChanged_frame (sys : Sys) (p : String) :
    (sys.st.path = p → onPathChanged p sys = sys) ∧
    (sys.st.path ≠ p → onPathChanged p sys = stepSetPath p sys) := by
  constructor <;> intro h <;> simp [onPathChanged, h]

/-- Witness for C9: notifying `/a` on the flagged state (current path `/a`)
changes nothing; notifying `/c` stores and validates. -/
theorem c9_pathChanged_frame_witness :
    (sFlagged.path = "/a" ∧
      onPathChanged "/a" { st := sFlagged, requests := ["/a"] } =
        { st := sFlagged, requests := ["/a"] }) ∧
    (sFlagged.path ≠ "/c" ∧
      onPathChanged "/c" { st := sFlagged, requests := ["/a"] } =
        stepSetPath "/c" { st := sFlagged, requests := ["/a"] }) := by
  refine ⟨⟨by decide, ?_⟩, ⟨by decide, ?_⟩⟩
  · exact (c9_pathChanged_frame { st := sFlagged, requests := ["/a"] } "/a").1 (by decide)
  · exact (c9_pathChanged_frame { st := sFlagged, requests := ["/a"] } "/c").2 (by decide)

/-- Counterexample to claim C3 as stated.  `requestTrust` is invoked in the
flagged state (current path `/a`, unsafe owner path `/owner`) and the
path changes to `/b` while the trust side effect is in flight, so the
live path at completion is `/b`.  The claim demands exactly one
re-validation against `/b`; the handler instead issues none for `/b` —
its one re-validation targets the captured path `/a` (it destructures
`path` before its first `await`). -/
theorem c3_live_revalidation_cx :
    (onTrustDirectoryTrace true sFlagged "/b").count (TrustAction.callValidatePath "/b") = 0 ∧
    (onTrustDirectoryTrace true sFlagged "/b").count (TrustAction.issueClassification "/b") = 0 ∧
    onTrustDirectoryTrace true sFlagged "/b" =
      [TrustAction.setTrusting true, TrustAction.callTrustPath "/owner",
       TrustAction.callValidatePath "/a", TrustAction.issueClassification "/a",
       TrustAction.classificationResolved "/a", TrustAction.setTrusting false] := by
  decide

/-- Claim C3 (amended): when `requestTrust` is invoked while the
classification is unsafe with owner path `p` (non-empty, as JavaScript
truthiness requires) and a non-empty current path, exactly one
`trustPath(p)` call is made — against the owner path carried by the
classification, which may differ from the displayed path — followed by
exactly one re-validation issued against the path captured when the
handler began, regardless of the live path `pLive` at the time the trust
side effect completes. -/
theorem c3_trust_sequence (s0 : CompState) (p pLive : String)
    (hup : s0.repositoryUntrustedPath = some p) (hp : p ≠ "") (hpath : s0.path ≠ "") :
    onTrustDirectoryTrace true s0 pLive =
      [TrustAction.setTrusting true, TrustAction.callTrustPath p,
       TrustAction.callValidatePath s0.path, TrustAction.issueClassification s0.path,
       TrustAction.classificationResolved s0.path, TrustAction.setTrusting false] :=
  trustTrace_eq s0 p pLive hup hp hpath

/-- Witness for C3 (amended), at the flagged state with live path `/b`. -/
theorem c3_trust_sequence_witness :
    sFlagged.repositoryUntrustedPath = some "/owner" ∧ "/owner" ≠ "" ∧ sFlagged.path ≠ "" ∧
    onTrustDirectoryTrace true sFlagged "/b" =
      [TrustAction.setTrusting true, TrustAction.callTrustPath "/owner",
       TrustAction.callValidatePath sFlagged.path, TrustAction.issueClassification sFlagged.path,
       TrustAction.classificationResolved sFlagged.path, TrustAction.setTrusting false] :=
  ⟨rfl, by decide, by decide,
    c3_trust_sequence sFlagged "/owner" "/b" rfl (by decide) (by decide)⟩

/-- Counterexample to claim C4 as stated.  In the flagged state, with the
awaited `addSafeDirectory` rejecting, the handler — which has no
`try`/`catch` — stops after the trust call: the classification fields are
indeed unchanged, but `isTrustingRepository` is left `true`, not reset to
`false` as the claim demands, and the rejection propagates out of the
handler (`Except.error`) instead of being recovered locally. -/
theorem c4_trust_failure_cx :
    onTrustDirectoryRun false RepositoryType.regular sFlagged =
      Except.error
        { path := "/a"
          isRepository := false
          showNonGitRepositoryWarning := true
          isRepositoryBare := false
          isRepositoryUntrusted := true
          repositoryUntrustedPath := some "/owner"
          isTrustingRepository := true } ∧
    onTrustDirectoryTrace false sFlagged "/a" =
      [TrustAction.setTrusting true, TrustAction.callTrustPath "/owner"] := by
  exact ⟨rfl, by decide⟩

/-- Claim C4 (amended): if the `trustPath` side effect fails, the
classification is left unchanged (still unsafe, with its owner path) and
no re-validation is issued, but `isTrusting` is not reset — it remains
`true` and the failure propagates out of the handler. -/
theorem c4_trust_failure_state (s0 : CompState) (p : String) (t : RepositoryType)
    (pLive : String) (hup : s0.repositoryUntrustedPath = some p) (hp : p ≠ "") :
    onTrustDirectoryRun false t s0 = Except.error { s0 with isTrustingRepository := true } ∧
    onTrustDirectoryTrace false s0 pLive =
      [TrustAction.setTrusting true, TrustAction.callTrustPath p] := by
  constructor
  · simp [onTrustDirectoryRun, optTruthy, hup, hp]
  · simp [onTrustDirectoryTrace, hup, hp]

/-- Witness for C4 (amended), at the flagged state. -/
theorem c4_trust_failure_state_witness :
    sFlagged.repositoryUntrustedPath = some "/owner" ∧ "/owner" ≠ "" ∧
    onTrustDirectoryRun false RepositoryType.missing sFlagged =
      Except.error { sFlagged with isTrustingRepository := true } ∧
    onTrustDirectoryTrace false sFlagged "/a" =
      [TrustAction.setTrusting true, TrustAction.callTrustPath "/owner"] := by
  refine ⟨rfl, by decide, ?_, ?_⟩
  · exact (c4_trust_failure_state sFlagged "/owner" RepositoryType.missing "/a" rfl
      (by decide)).1
  · exact (c4_trust_failure_state sFlagged "/owner" RepositoryType.missing "/a" rfl
      (by decide)).2

/-- Counterexample to claim C5 as stated.  In the flagged state (no
concurrent edit), the trace of `requestTrust` places `setTrusting false`
strictly after the re-validation's resolution, not directly after its
issuance: the handler awaits `validatePath` in full before clearing
`isTrusting`. -/
theorem c5_trusting_cleared_cx :
    onTrustDirectoryTrace true sFlagged "/a" =
      [TrustAction.setTrusting true, TrustAction.callTrustPath "/owner",
       TrustAction.callValidatePath "/a", TrustAction.issueClassification "/a",
       TrustAction.classificationResolved "/a", TrustAction.setTrusting false] ∧
    (onTrustDirectoryTrace true sFlagged "/a").indexOf (TrustAction.issueClassification "/a") <
      (onTrustDirectoryTrace true sFlagged "/a").indexOf (TrustAction.classificationResolved "/a") ∧
    (onTrustDirectoryTrace true sFlagged "/a").indexOf (TrustAction.classificationResolved "/a") <
      (onTrustDirectoryTrace true sFlagged "/a").indexOf (TrustAction.setTrusting false) := by
  decide

/-- Claim C5 (amended): during `requestTrust`, `isTrusting` is reset to
`false` only once — as the final action, after the re-validation has
resolved (the handler awaits `validatePath` before clearing the flag);
it is never cleared between the issuance and the resolution of the
re-validation. -/
theorem c5_trusting_cleared_after_resolve (s0 : CompState) (p pLive : String)
    (hup : s0.repositoryUntrustedPath = some p) (hp : p ≠ "") (hpath : s0.path ≠ "") :
    TrustAction.setTrusting false ∉ (onTrustDirectoryTrace true s0 pLive).dropLast ∧
    (onTrustDirectoryTrace true s0 pLive).getLast? = some (TrustAction.setTrusting false) ∧
    TrustAction.classificationResolved s0.path ∈ (onTrustDirectoryTrace true s0 pLive).dropLast := by
  rw [trustTrace_eq s0 p pLive hup hp hpath]
  refine ⟨?_, ?_, ?_⟩ <;> simp

/-- Witness for C5 (amended), at the flagged state. -/
theorem c5_trusting_cleared_after_resolve_witness :
    sFlagged.repositoryUntrustedPath = some "/owner" ∧ "/owner" ≠ "" ∧ sFlagged.path ≠ "" ∧
    (TrustAction.setTrusting false ∉ (onTrustDirectoryTrace true sFlagged "/b").dropLast ∧
      (onTrustDirectoryTrace true sFlagged "/b").getLast? = some (TrustAction.setTrusting false) ∧
      TrustAction.classificationResolved sFlagged.path ∈
        (onTrustDirectoryTrace true sFlagged "/b").dropLast) :=
  ⟨rfl, by decide, by decide,
    c5_trusting_cleared_after_resolve sFlagged "/owner" "/b" rfl (by decide) (by decide)⟩

/-- Claim C10: when `requestTrust` runs with no unsafe owner path recorded
(`repositoryUnsafePath` undefined), no `trustPath` call is made, but the
handler still sets `isTrusting` true first and false last, and still
invokes one re-validation of the captured path; under the no-edit
schedule it completes normally (`Except.ok`) — the precondition violation
degrades to a harmless re-validation rather than an error. -/
theorem c10_trust_without_owner (s0 : CompState) (t : RepositoryType) (trustOk : Bool)
    (pLive : String) (h : s0.repositoryUntrustedPath = none) :
    onTrustDirectoryTrace trustOk s0 pLive =
      TrustAction.setTrusting true ::
        (validatePathActions s0.path ++ [TrustAction.setTrusting false]) ∧
    (∀ q, TrustAction.callTrustPath q ∉ onTrustDirectoryTrace trustOk s0 pLive) ∧
    TrustAction.callValidatePath s0.path ∈ onTrustDirectoryTrace trustOk s0 pLive ∧
    (onTrustDirectoryTrace trustOk s0 pLive).head? = some (TrustAction.setTrusting true) ∧
    (onTrustDirectoryTrace trustOk s0 pLive).getLast? = some (TrustAction.setTrusting false) ∧
    onTrustDirectoryRun trustOk t s0 =
      Except.ok { validatePathRun s0.path t { s0 with isTrustingRepository := true } with
                  isTrustingRepository := false } := by
  have htr : onTrustDirectoryTrace trustOk s0 pLive =
      TrustAction.setTrusting true ::
        (validatePathActions s0.path ++ [TrustAction.setTrusting false]) := by
    simp [onTrustDirectoryTrace, h]
  refine ⟨htr, ?_, ?_, ?_, ?_, ?_⟩
  · intro q
    rw [htr]
    by_cases hl : s0.path.length = 0 <;> simp [validatePathActions, hl]
  · rw [htr]
    simp [validatePathActions]
  · rw [htr]
    rfl
  · rw [htr]
    rw [show TrustAction.setTrusting true ::
        (validatePathActions s0.path ++ [TrustAction.setTrusting false]) =
        (TrustAction.setTrusting true :: validatePathActions s0.path) ++
          [TrustAction.setTrusting false] from rfl]
    exact List.getLast?_concat _
  · simp [onTrustDirectoryRun, optTruthy, h]

/-- Witness for C10: at a state with no owner path recorded. -/
theorem c10_trust_without_owner_witness :
    sPlain.repositoryUntrustedPath = none ∧
    onTrustDirectoryTrace true sPlain "/b" =
      TrustAction.setTrusting true ::
        (validatePathActions sPlain.path ++ [TrustAction.setTrusting false]) ∧
    TrustAction.callTrustPath "/owner" ∉ onTrustDirectoryTrace true sPlain "/b" ∧
    onTrustDirectoryRun true RepositoryType.regular sPlain =
      Except.ok { validatePathRun sPlain.path RepositoryType.regular
                    { sPlain with isTrustingRepository := true } with
                  isTrustingRepository := false } := by
  have h := c10_trust_without_owner sPlain RepositoryType.regular true "/b" rfl
  exact ⟨rfl, h.1, h.2.1 "/owner", h.2.2.2.2.2⟩

/-- Claim C7: the path normalizer `resolvedPath` — home-directory expansion
(`untildify`) followed by resolution against `/` as root
(`Path.resolve('/', ...)`) — is idempotent: for every input string `p`
(and every home directory), normalizing twice equals normalizing once. -/
theorem c7_resolvedPath_idempotent (home p : String) :
    resolvedPath home (resolvedPath home p) = resolvedPath home p :=
  congrArg String.mk (normalizeL_idem home.data p.data)
